import Mathlib

/-!
Shallow embedding of `mediautil.py` (repository p950tes/server1-scripts).

The Python program inspects a media file with ffprobe, builds a `Stream` /
`MediaFile` model, plans edits (delete streams, retag languages, delete all
audio except one, extract subtitles) as ffmpeg arguments, runs ffmpeg into a
working file and finally commits by deleting the original and renaming the
working file.

Pure fragments (stream construction, planners, path resolution) are embedded
as Lean functions; the filesystem-touching tail of `process_file` and
`cleanup` is embedded as a function producing an explicit list of filesystem
effects, with the outcomes of external subprocesses (ffmpeg exit codes, file
existence) passed in as parameters.
-/

namespace Mediautil

/-- Python `needle in hay` substring test on strings. -/
def pyIn (needle hay : String) : Bool :=
  decide (needle.toList <:+: hay.toList)

/-- Python `str.upper()` (ASCII model). -/
def pyUpper (s : String) : String :=
  String.mk (s.data.map Char.toUpper)

/-- Split a character list on a separator character; mirrors Python
`str.split(sep)` for a one-character separator. -/
def splitOnCharList (c : Char) : List Char → List (List Char)
  | [] => [[]]
  | x :: xs =>
    let r := splitOnCharList c xs
    if x = c then [] :: r
    else
      match r with
      | [] => [[x]]
      | y :: ys => (x :: y) :: ys

/-- Python `s.split(sep)` for a one-character separator, on strings. -/
def pySplit (c : Char) (s : String) : List String :=
  (splitOnCharList c s.data).map String.mk

/-- Lookup in a Python dict modelled as an association list. -/
def dictGet (m : List (String × String)) (k : String) : Option String :=
  (m.find? (fun kv => kv.1 = k)).map (fun kv => kv.2)

/-- Lookup in a Python dict with integer values. -/
def dictGetInt (m : List (String × Int)) (k : String) : Option Int :=
  (m.find? (fun kv => kv.1 = k)).map (fun kv => kv.2)

/-- Python truthiness of an optional string (`if tags.get(k):`). -/
def pyTruthy (o : Option String) : Bool :=
  match o with
  | none => false
  | some s => !(s = "")

/-- One raw ffprobe stream descriptor: the fields of the JSON object that
`mediautil.py` reads. `disposition` and `tags` model the optional
sub-dictionaries. -/
structure RawStream where
  index : Int
  codec_type : Option String := none
  codec_name : Option String := none
  disposition : Option (List (String × Int)) := none
  tags : Option (List (String × String)) := none
deriving Repr, DecidableEq

/-- The `Stream` class of `mediautil.py`: typed view over one raw descriptor,
as built by `Stream.__init__` and `Stream.__parse_tags`. -/
structure MStream where
  type : Option String
  codec_name : Option String
  index : Int
  raw : RawStream
  language : String
  title : String
  filename : String
  mimetype : String
deriving Repr, DecidableEq

/-- `Stream.__init__`: populate the typed fields from the raw descriptor.
Tag-derived fields keep their class defaults (`language = "unknown"`, empty
strings) unless the tag is present and truthy. -/
def Stream_mk (raw : RawStream) : MStream :=
  let tagOr : String → String → String := fun key dflt =>
    match raw.tags with
    | none => dflt
    | some ts =>
      match dictGet ts key with
      | some v => if v = "" then dflt else v
      | none => dflt
  { type := raw.codec_type
    codec_name := raw.codec_name
    index := raw.index
    raw := raw
    language := tagOr "language" "unknown"
    title := tagOr "title" ""
    filename := tagOr "filename" ""
    mimetype := tagOr "mimetype" "" }

/-- `Stream.__has_disposition`: false when the `disposition` dict or the key
is absent, otherwise tests that the integer value is positive. -/
def has_disposition (s : MStream) (d : String) : Bool :=
  match s.raw.disposition with
  | none => false
  | some m =>
    match dictGetInt m d with
    | none => false
    | some v => decide (v > 0)

/-- `Stream.is_video`. -/
def is_video (s : MStream) : Bool := s.type = some "video"

/-- `Stream.is_audio`. -/
def is_audio (s : MStream) : Bool := s.type = some "audio"

/-- `Stream.is_subtitle`. -/
def is_subtitle (s : MStream) : Bool := s.type = some "subtitle"

/-- `Stream.is_unknown_type`: codec type not among video/audio/subtitle. -/
def is_unknown_type (s : MStream) : Bool :=
  !(s.type = some "video" || s.type = some "audio" || s.type = some "subtitle")

/-- `Stream.is_image`. -/
def is_image (s : MStream) : Bool :=
  s.codec_name = some "mjpeg" || s.codec_name = some "png"

/-- `Stream.is_default`: explicit disposition flag only. -/
def is_default (s : MStream) : Bool :=
  has_disposition s "default"

/-- `Stream.is_forced`: explicit disposition flag OR the substring FORCED in
the uppercased title. -/
def is_forced (s : MStream) : Bool :=
  has_disposition s "forced" || pyIn "FORCED" (pyUpper s.title)

/-- `Stream.is_hearing_impaired`: explicit disposition flag OR the substring
SDH in the uppercased title. -/
def is_hearing_impaired (s : MStream) : Bool :=
  has_disposition s "hearing_impaired" || pyIn "SDH" (pyUpper s.title)

/-- `Stream.is_image_based_subtitle`. -/
def is_image_based_subtitle (s : MStream) : Bool :=
  is_subtitle s &&
    (s.raw.codec_name = some "dvd_subtitle" || s.raw.codec_name = some "dvb_subtitle" ||
     s.raw.codec_name = some "pgs_subtitle" || s.raw.codec_name = some "hdmv_pgs_subtitle")

/-- Model of `os.path.splitext(path)[1][1:]`: the extension of the final path
component, without its dot. -/
def splitext_ext (path : String) : String :=
  let base := (pySplit '/' path).getLastD ""
  let parts := pySplit '.' base
  match parts with
  | [] => ""
  | [_] => ""
  | ps => if ps.length = 2 && (ps.headD "") = "" then "" else ps.getLastD ""

/-- The `MediaFile` class: path, container extension and the ordered stream
list. -/
structure MediaFile where
  path : String
  container : String
  streams : List MStream
deriving Repr, DecidableEq

/-- `MediaFile.get_video_streams`. -/
def get_video_streams (f : MediaFile) : List MStream :=
  f.streams.filter is_video

/-- `MediaFile.get_audio_streams`. -/
def get_audio_streams (f : MediaFile) : List MStream :=
  f.streams.filter is_audio

/-- `MediaFile.get_subtitle_streams`. -/
def get_subtitle_streams (f : MediaFile) : List MStream :=
  f.streams.filter is_subtitle

/-- Python-level runtime failures and calls to the script's `fatal`. Either
way the process terminates with a non-zero exit code before anything later
in the run happens. -/
inductive PyErr where
  | fatalErr (msg : String)
  | typeError
  | indexError
  | attributeError (name : String)
  | valueError
deriving Repr, DecidableEq

/-- The index-validation loop of `parse_mediafile`: compares each position
`i` of the stream list with `streams[i].index`, failing fatally at the first
mismatch. -/
def validate_indexes : List MStream → Nat → Option PyErr
  | [], _ => none
  | s :: rest, i =>
    if (i : Int) ≠ s.index then
      some (PyErr.fatalErr ("The array index " ++ toString i ++
        " does not match the stream index " ++ toString s.index))
    else
      validate_indexes rest (i + 1)

/-- `parse_mediafile`, from the point where ffprobe output has been decoded:
build one `Stream` per raw descriptor, validate the index invariant, and
construct the `MediaFile`. -/
def parse_mediafile (filepath : String) (raw_streams : List RawStream) :
    Except PyErr MediaFile :=
  match validate_indexes (raw_streams.map Stream_mk) 0 with
  | some e => Except.error e
  | none =>
    Except.ok
      { path := filepath, container := splitext_ext filepath,
        streams := raw_streams.map Stream_mk }

theorem validate_indexes_none_iff (l : List MStream) (k : Nat) :
    validate_indexes l k = none ↔
      ∀ i : Nat, ∀ h : i < l.length, (l.get ⟨i, h⟩).index = (k : Int) + (i : Int) := by
  induction l generalizing k with
  | nil => simp [validate_indexes]
  | cons s rest ih =>
    simp only [validate_indexes]
    by_cases hk : (k : Int) = s.index
    · rw [if_neg (by simp [hk]), ih (k + 1)]
      constructor
      · intro hrest i h
        match i with
        | 0 => simpa using hk.symm
        | Nat.succ j =>
          have hj : j < rest.length := Nat.lt_of_succ_lt_succ (by simpa using h)
          have hr := hrest j hj
          simp only [List.get_eq_getElem, List.getElem_cons_succ] at hr ⊢
          rw [hr]
          push_cast
          ring
      · intro hall j hj
        have h2 : j + 1 < (s :: rest).length := by simpa using Nat.succ_lt_succ hj
        have hg := hall (j + 1) h2
        simp only [List.get_eq_getElem, List.getElem_cons_succ] at hg ⊢
        rw [hg]
        push_cast
        ring
    · rw [if_pos hk]
      constructor
      · intro h
        exact absurd h (by simp)
      · intro hall
        have h0 := hall 0 (by simp)
        simp at h0
        exact absurd h0.symm hk

/-- A Python value reaching the planner from `parse_args`: the elements of
`args.delete_stream` are either `int`s (comma-separated request) or a raw
`str` (single-index request). -/
inductive PyVal where
  | int (i : Int)
  | str (s : String)
deriving Repr, DecidableEq

/-- Python comparison `v >= n` between a dynamic value and an `int`: raises
`TypeError` when `v` is a string. -/
def pyGe (v : PyVal) (n : Int) : Except PyErr Bool :=
  match v with
  | PyVal.int i => Except.ok (decide (i ≥ n))
  | PyVal.str _ => Except.error PyErr.typeError

/-- Python list subscript `l[i]`: non-negative indices from the front,
negative indices from the back, `IndexError` (modelled as `none`) outside
`-len ≤ i < len`. -/
def pyIndex (l : List α) (i : Int) : Option α :=
  if 0 ≤ i then l.get? i.toNat
  else if 0 ≤ (l.length : Int) + i then l.get? ((l.length : Int) + i).toNat
  else none

/-- Model of Python `int(s)` on a string: `none` stands for `ValueError`. -/
def pyIntOfString (s : String) : Option Int :=
  s.toInt?

/-- The `--delete-stream` post-processing in `parse_args`: a comma-separated
argument is split and each part converted with `int`, while an argument
without a comma is wrapped in a singleton list still as a string. -/
def parse_delete_stream_arg (s : String) : Except PyErr (List PyVal) :=
  if pyIn "," s then
    match (pySplit ',' s).mapM pyIntOfString with
    | none => Except.error PyErr.valueError
    | some is => Except.ok (is.map PyVal.int)
  else
    Except.ok [PyVal.str s]

/-- One `executor.add_args`/`add_arg` call: the argument strings appended to
the ffmpeg invocation for one planned directive. -/
abbrev Directive := List String

/-- The `--set-stream-language` block of `process_file`: bound check (whose
fatal message itself raises `AttributeError`, since `ARGS.stream_index` does
not exist), stream lookup, no-op language rejection, then exactly one
metadata directive. Returns the directives appended to the executor and the
terminating error, if any. -/
def plan_set_stream_language (f : MediaFile) (stream_index : Int)
    (new_language : String) : List Directive × Option PyErr :=
  if stream_index ≥ (f.streams.length : Int) then
    ([], some (PyErr.attributeError "stream_index"))
  else
    match pyIndex f.streams stream_index with
    | none => ([], some PyErr.indexError)
    | some stream_to_modify =>
      if stream_to_modify.language = new_language then
        ([], some (PyErr.fatalErr ("The specified stream already has '" ++
          new_language ++ "' set as language")))
      else
        ([["-metadata:s:" ++ toString stream_index, "language=" ++ new_language]], none)

/-- The `--delete-stream` loop of `process_file`: for each requested index,
compare against the stream-list length (a `TypeError` when the index is
still a string), then emit one map-exclusion directive for the addressed
stream. Directives already appended before a failing index are kept, the
loop stops at the first error. -/
def plan_delete_stream (f : MediaFile) : List PyVal → List Directive × Option PyErr
  | [] => ([], none)
  | v :: rest =>
    match pyGe v (f.streams.length : Int) with
    | Except.error e => ([], some e)
    | Except.ok true => ([], some (PyErr.fatalErr "Stream index not found"))
    | Except.ok false =>
      match v with
      | PyVal.str _ => ([], some PyErr.typeError)
      | PyVal.int i =>
        match pyIndex f.streams i with
        | none => ([], some PyErr.indexError)
        | some stream_to_delete =>
          let res := plan_delete_stream f rest
          (["-map", "-0:" ++ toString stream_to_delete.index] :: res.1, res.2)

/-- The `--delete-audio-streams-except` block of `process_file`: fatal when
the argument exceeds the number of audio streams, otherwise one
map-exclusion directive per audio stream whose container-global `index`
differs from the argument. -/
def plan_delete_audio_streams_except (f : MediaFile) (n : Int) :
    List Directive × Option PyErr :=
  if n > ((get_audio_streams f).length : Int) then
    ([], some (PyErr.fatalErr ("Audio stream index not found: " ++ toString n)))
  else
    let audio_streams_to_delete :=
      (get_audio_streams f).filter (fun s => s.index ≠ n)
    (audio_streams_to_delete.map (fun s => ["-map", "-0:" ++ toString s.index]), none)

/-- The sequence of file names tried by `resolve_new_subtitle_file_path`:
first the plain name, then numeric suffixes starting at 1. -/
def subtitle_candidate (output_base : String) : Nat → String
  | 0 => output_base ++ ".srt"
  | Nat.succ i => output_base ++ "." ++ toString (i + 1) ++ ".srt"

/-- The collision loop of `resolve_new_subtitle_file_path` (`while
os.path.exists(output_file): i += 1; ...`), with the filesystem modelled as
the list of existing paths and the unbounded `while` given explicit fuel;
`none` means the fuel ran out. -/
def resolve_loop (existing : List String) (output_base : String) :
    Nat → Nat → Option String
  | 0, _ => none
  | Nat.succ fuel, i =>
    if subtitle_candidate output_base i ∈ existing then
      resolve_loop existing output_base fuel (i + 1)
    else
      some (subtitle_candidate output_base i)

/-- `resolve_new_subtitle_file_path`: build the language segment (language
code, plus `.sdh` when hearing-impaired, plus `.forced` when forced), join
it to the destination directory and stem, and pick the first candidate not
present on the filesystem. Fuel `existing.length + 1` suffices whenever any
of the first `existing.length + 1` candidates is free. -/
def resolve_new_subtitle_file_path (existing : List String) (subtitle : MStream)
    (name destination_dir : String) : Option String :=
  let language_str := subtitle.language
  let language_str := if is_hearing_impaired subtitle then language_str ++ ".sdh" else language_str
  let language_str := if is_forced subtitle then language_str ++ ".forced" else language_str
  let output_base := destination_dir ++ "/" ++ name ++ "." ++ language_str
  resolve_loop existing output_base (existing.length + 1) 0

/-- A filesystem-mutating action or subprocess launch performed by the
program. `runProcess` is the only way the program can cause file content to
be written (by ffmpeg); the program itself only ever creates directories,
unlinks and renames. -/
inductive Effect where
  | makedirs (p : String)
  | runProcess (args : List String)
  | unlink (p : String)
  | replace (src dst : String)
deriving Repr, DecidableEq

/-- The operator options consumed by the execution and commit code. -/
structure Config where
  verbose : Bool
  dry_run : Bool
  cleanup : Bool
  create_dir : Bool
  extract_subs : Bool
deriving Repr, DecidableEq

/-- `FFMPEG_ANALYZEDURATION` (`str(100_000_000)`). -/
def FFMPEG_ANALYZEDURATION : String := "100000000"

/-- `FFMPEG_PROBESIZE` (`str(100_000_000)`). -/
def FFMPEG_PROBESIZE : String := "100000000"

/-- `FfmpegExecutor.__init__`: the fixed argument head of every ffmpeg
invocation. -/
def ffmpeg_base_args (verbose : Bool) (input_file_path : String) : List String :=
  ["ffmpeg"] ++ (if verbose then [] else ["-loglevel", "warning"]) ++
    ["-nostdin", "-hide_banner", "-analyzeduration", FFMPEG_ANALYZEDURATION,
     "-probesize", FFMPEG_PROBESIZE, "-i", input_file_path]

/-- `FfmpegExecutor.execute`: in dry-run mode nothing is launched and the
outcome is 0; otherwise the process is launched and its exit code (a
parameter of the model) is returned. -/
def FfmpegExecutor_execute (dry_run : Bool) (args : List String) (rc : Int) :
    Int × List Effect :=
  if dry_run then (0, []) else (rc, [Effect.runProcess args])

/-- The subtitle streams that `extract_subtitles` actually extracts:
subtitle streams that are not image based. -/
def eligible_subtitles (f : MediaFile) : List MStream :=
  (get_subtitle_streams f).filter (fun s => !is_image_based_subtitle s)

/-- The ffmpeg invocation built for one subtitle extraction. -/
def extract_invocation_args (verbose : Bool) (input_path : String) (sub : MStream)
    (output_file : String) : List String :=
  ffmpeg_base_args verbose input_path ++
    ["-map", "0:" ++ toString sub.index] ++ ["-c", "srt"] ++ [output_file]

/-- The effects of `extract_subtitles`: one executor run per eligible
subtitle stream, each with its own exit code `rc_ext i`; a failing
extraction only prints an error and never aborts the others. The
destination paths are resolved against the filesystem snapshot
`existing`. -/
def extract_subtitles_fx (cfg : Config) (f : MediaFile) (existing : List String)
    (name destination_dir : String) (rc_ext : Nat → Int) : List Effect :=
  ((eligible_subtitles f).enum.map (fun p =>
    let output_file :=
      (resolve_new_subtitle_file_path existing p.2 name destination_dir).getD ""
    (FfmpegExecutor_execute cfg.dry_run
      (extract_invocation_args cfg.verbose f.path p.2 output_file) (rc_ext p.1)).2)).flatten

/-- The `cleanup` function: nothing in dry-run mode, nothing (but a report)
when cleanup is disabled, fatal when the working file is missing, otherwise
unlink the original and rename the working file onto the destination.
`working_exists` is the `os.path.exists(workingfile)` observation at entry. -/
def cleanup_fn (cfg : Config) (working_exists : Bool)
    (inputfile workingfile outputfile : String) : List Effect × Option PyErr :=
  if cfg.dry_run then ([], none)
  else if !cfg.cleanup then ([], none)
  else if !working_exists then
    ([], some (PyErr.fatalErr (workingfile ++ " does not exist. Aborting cleanup")))
  else
    ([Effect.unlink inputfile, Effect.replace workingfile outputfile], none)

/-- The working directory computed by `process_file`: the input file's
directory, or a subdirectory named after the stem when `--create-dir` is
given. `dir0` models `os.path.dirname(os.path.abspath(path))` and `stem`
models `Path(path).stem`. -/
def working_dir_of (cfg : Config) (dir0 stem : String) : String :=
  if cfg.create_dir then dir0 ++ "/" ++ stem else dir0

/-- The transient working file `<dir>/<stem>.new.<container>`. -/
def working_file_of (cfg : Config) (dir0 stem oc : String) : String :=
  working_dir_of cfg dir0 stem ++ "/" ++ stem ++ ".new." ++ oc

/-- The final destination file `<dir>/<stem>.<container>`. -/
def output_file_of (cfg : Config) (dir0 stem oc : String) : String :=
  working_dir_of cfg dir0 stem ++ "/" ++ stem ++ "." ++ oc

/-- The effects of `process_file` between the precondition checks and the
main ffmpeg run: working-directory creation (skipped in dry-run mode) and
subtitle extraction (when requested). -/
def pre_engine_fx (cfg : Config) (f : MediaFile) (existing : List String)
    (stem working_dir : String) (rc_ext : Nat → Int) : List Effect :=
  (if working_dir ∉ existing ∧ !cfg.dry_run then [Effect.makedirs working_dir] else []) ++
    (if cfg.extract_subs then extract_subtitles_fx cfg f existing stem working_dir rc_ext
     else [])

/-- The tail of `process_file`, from the working-file computation to
`cleanup`: precondition checks, working-directory creation, subtitle
extraction, the main ffmpeg run, and the commit. External observations are
parameters: `existing` is the filesystem before the run, `working_exists_after`
is whether the working file exists when `cleanup` checks for it, `rc_main`
and `rc_ext` are the subprocess exit codes. -/
def process_file_commit (cfg : Config) (f : MediaFile)
    (oc dir0 stem : String) (existing : List String)
    (executor_args : List String) (num_actions : Nat) (container_change : Bool)
    (working_exists_after : Bool) (rc_main : Int) (rc_ext : Nat → Int) :
    List Effect × Option PyErr :=
  if working_file_of cfg dir0 stem oc ∈ existing then
    ([], some (PyErr.fatalErr ("Working file already exists: " ++
      working_file_of cfg dir0 stem oc)))
  else if container_change && output_file_of cfg dir0 stem oc ∈ existing then
    ([], some (PyErr.fatalErr ("Output file already exists: " ++
      output_file_of cfg dir0 stem oc)))
  else if num_actions = 0 then
    (pre_engine_fx cfg f existing stem (working_dir_of cfg dir0 stem) rc_ext, none)
  else if (FfmpegExecutor_execute cfg.dry_run
      (executor_args ++ [working_file_of cfg dir0 stem oc]) rc_main).1 ≠ 0 then
    (pre_engine_fx cfg f existing stem (working_dir_of cfg dir0 stem) rc_ext ++
      (FfmpegExecutor_execute cfg.dry_run
        (executor_args ++ [working_file_of cfg dir0 stem oc]) rc_main).2,
     some (PyErr.fatalErr ("ffmpeg execution failed with exit code " ++
       toString (FfmpegExecutor_execute cfg.dry_run
         (executor_args ++ [working_file_of cfg dir0 stem oc]) rc_main).1)))
  else
    (pre_engine_fx cfg f existing stem (working_dir_of cfg dir0 stem) rc_ext ++
      (FfmpegExecutor_execute cfg.dry_run
        (executor_args ++ [working_file_of cfg dir0 stem oc]) rc_main).2 ++
      (cleanup_fn cfg working_exists_after f.path (working_file_of cfg dir0 stem oc)
        (output_file_of cfg dir0 stem oc)).1,
     (cleanup_fn cfg working_exists_after f.path (working_file_of cfg dir0 stem oc)
       (output_file_of cfg dir0 stem oc)).2)

/-! ## Concrete descriptors and files used by witnesses and counterexamples -/

/-- A video descriptor at container index 0. -/
def rawVideo0 : RawStream :=
  { index := 0, codec_type := some "video", codec_name := some "h264" }

/-- A text subtitle descriptor at container index 1. -/
def rawSub1 : RawStream :=
  { index := 1, codec_type := some "subtitle", codec_name := some "subrip",
    tags := some [("language", "eng")] }

/-- An English audio descriptor at container index 2. -/
def rawAudio2 : RawStream :=
  { index := 2, codec_type := some "audio", codec_name := some "aac",
    tags := some [("language", "eng")] }

/-- A Swedish audio descriptor at container index 3. -/
def rawAudio3 : RawStream :=
  { index := 3, codec_type := some "audio", codec_name := some "ac3",
    tags := some [("language", "swe")] }

/-- An English audio descriptor at container index 0 (sole stream). -/
def rawAudioSolo : RawStream :=
  { index := 0, codec_type := some "audio", codec_name := some "aac",
    tags := some [("language", "eng")] }

/-- A file with a video stream, a subtitle stream and two audio streams, so
that the audio streams' container-global indexes (2 and 3) differ from
their type-local indexes (0 and 1). -/
def exFileC1 : MediaFile :=
  { path := "/m/x.mkv", container := "mkv",
    streams := [rawVideo0, rawSub1, rawAudio2, rawAudio3].map Stream_mk }

/-- A file whose only stream is one English audio stream. -/
def exFileSolo : MediaFile :=
  { path := "/m/y.mkv", container := "mkv", streams := [Stream_mk rawAudioSolo] }

/-- A configuration in dry-run mode with extraction requested. -/
def cfgDry : Config :=
  { verbose := false, dry_run := true, cleanup := true, create_dir := false,
    extract_subs := true }

/-- A configuration with dry-run disabled and cleanup enabled. -/
def cfgWet : Config :=
  { verbose := false, dry_run := false, cleanup := true, create_dir := false,
    extract_subs := false }

/-- The expected result of ingesting `[rawVideo0, rawSub1]`. -/
def exMfC4 : MediaFile :=
  { path := "/m/x.mkv", container := "mkv",
    streams := [rawVideo0, rawSub1].map Stream_mk }

/-! ## Claim theorems -/

/-- C4: for every ingested descriptor set, either `streams[i].index == i`
holds at every position of the constructed MediaFile (whose stream list is
exactly the list of constructed streams, never reindexed), or ingestion
fails fatally. -/
theorem claim_C4_index_invariant (filepath : String) (raw_streams : List RawStream) :
    (∀ mf, parse_mediafile filepath raw_streams = Except.ok mf →
      mf.streams = raw_streams.map Stream_mk ∧
      ∀ i : Nat, ∀ h : i < mf.streams.length, (mf.streams.get ⟨i, h⟩).index = (i : Int)) ∧
    ((¬ ∀ i : Nat, ∀ h : i < (raw_streams.map Stream_mk).length,
        ((raw_streams.map Stream_mk).get ⟨i, h⟩).index = (i : Int)) →
      ∃ e, parse_mediafile filepath raw_streams = Except.error e) := by
  have hiff := validate_indexes_none_iff (raw_streams.map Stream_mk) 0
  simp only [Nat.cast_zero, zero_add] at hiff
  constructor
  · intro mf hok
    unfold parse_mediafile at hok
    cases hval : validate_indexes (raw_streams.map Stream_mk) 0 with
    | some e => rw [hval] at hok; exact absurd hok (by simp)
    | none =>
      rw [hval] at hok
      injection hok with h
      subst h
      exact ⟨rfl, hiff.mp hval⟩
  · intro hnot
    unfold parse_mediafile
    cases hval : validate_indexes (raw_streams.map Stream_mk) 0 with
    | some e => exact ⟨e, rfl⟩
    | none => exact absurd (hiff.mp hval) hnot

/-- Witness for C4: ingesting two well-indexed descriptors succeeds and the
stream list is exactly the constructed one. -/
theorem claim_C4_witness : exMfC4.streams = [rawVideo0, rawSub1].map Stream_mk :=
  ((claim_C4_index_invariant "/m/x.mkv" [rawVideo0, rawSub1]).1 exMfC4 rfl).1

/-- C8: each stream flag is the OR of its two sources: the explicit
disposition flag, and the title heuristic (substring FORCED for forced,
substring SDH for hearing-impaired, no title marker for default). -/
theorem claim_C8_flag_sources (s : MStream) :
    (is_default s = true ↔ has_disposition s "default" = true) ∧
    (is_forced s = true ↔
      (has_disposition s "forced" = true ∨ pyIn "FORCED" (pyUpper s.title) = true)) ∧
    (is_hearing_impaired s = true ↔
      (has_disposition s "hearing_impaired" = true ∨ pyIn "SDH" (pyUpper s.title) = true)) := by
  refine ⟨Iff.rfl, ?_, ?_⟩ <;>
    simp [is_forced, is_hearing_impaired, Bool.or_eq_true]

/-- A subtitle descriptor with no dispositions whose title mentions SDH. -/
def rawSdhSub : RawStream :=
  { index := 1, codec_type := some "subtitle",
    tags := some [("title", "English (SDH)")] }

/-- Witness for C8: a subtitle stream without dispositions whose title
contains SDH is flagged hearing-impaired. -/
theorem claim_C8_witness : is_hearing_impaired (Stream_mk rawSdhSub) = true :=
  (claim_C8_flag_sources (Stream_mk rawSdhSub)).2.2.mpr (Or.inr (by decide))

/-- C6: a retag of a validly addressed stream to its current language fails
fatally with no directive, and a retag to a different language emits exactly
one metadata directive. -/
theorem claim_C6_retag_noop (f : MediaFile) (idx : Int) (lang : String) (st : MStream)
    (h1 : idx < (f.streams.length : Int))
    (hst : pyIndex f.streams idx = some st) :
    (st.language = lang →
      plan_set_stream_language f idx lang =
        ([], some (PyErr.fatalErr ("The specified stream already has '" ++
          lang ++ "' set as language")))) ∧
    (st.language ≠ lang →
      plan_set_stream_language f idx lang =
        ([["-metadata:s:" ++ toString idx, "language=" ++ lang]], none) ∧
      (plan_set_stream_language f idx lang).1.length = 1) := by
  unfold plan_set_stream_language
  rw [if_neg (by omega), hst]
  constructor
  · intro heq
    simp [heq]
  · intro hne
    simp [hne]

/-- Witness for C6: retagging the sole (English) stream of `exFileSolo` to
German emits exactly the one metadata directive. -/
theorem claim_C6_witness :
    plan_set_stream_language exFileSolo 0 "ger" =
      ([["-metadata:s:0", "language=ger"]], none) :=
  (((claim_C6_retag_noop exFileSolo 0 "ger" (Stream_mk rawAudioSolo)
    (by decide) (by decide)).2 (by decide))).1

/-- C9: a `--delete-stream` request without a comma keeps its index as a
string, so the planner's bound comparison raises `TypeError` and no
directive is emitted. -/
theorem claim_C9_single_index_string (s : String) (f : MediaFile)
    (h : pyIn "," s = false) :
    parse_delete_stream_arg s = Except.ok [PyVal.str s] ∧
    plan_delete_stream f [PyVal.str s] = ([], some PyErr.typeError) := by
  constructor
  · simp [parse_delete_stream_arg, h]
  · rfl

/-- Witness for C9: the single-index request "2" against the one-stream file
dies with `TypeError` and emits nothing. -/
theorem claim_C9_witness :
    plan_delete_stream exFileSolo [PyVal.str "2"] = ([], some PyErr.typeError) :=
  (claim_C9_single_index_string "2" exFileSolo (by decide)).2

/-- C1: evaluating the delete-audio-streams-except planner at the failing
input `exFileC1` (audio streams at global indexes 2 and 3, type-local
indexes 0 and 1). The claim demands: a valid type-local N yields exactly
count(audio) - 1 = 1 exclusion, an out-of-range N is fatal. The code
instead compares N against the container-global index: N = 1 (valid
type-local) deletes BOTH audio streams, N = 2 (out of range type-locally)
is accepted and deletes one, and N = 3 (the global index of the second
audio stream) is rejected as not found, so that stream can never be kept. -/
theorem claim_C1_code_eval :
    (get_audio_streams exFileC1).length = 2 ∧
    plan_delete_audio_streams_except exFileC1 1 =
      ([["-map", "-0:2"], ["-map", "-0:3"]], none) ∧
    plan_delete_audio_streams_except exFileC1 2 = ([["-map", "-0:3"]], none) ∧
    plan_delete_audio_streams_except exFileC1 3 =
      ([], some (PyErr.fatalErr "Audio stream index not found: 3")) :=
  ⟨rfl, rfl, rfl, rfl⟩

/-- The C2 property exactly as claimed, for the retag (set-stream-language)
planner: a directive is emitted only when `0 ≤ i < len(streams)`, and every
other i fails fatally with no directive emitted. -/
def C2_claim_retag (f : MediaFile) (i : Int) (lang : String) : Prop :=
  ((plan_set_stream_language f i lang).1 ≠ [] →
    0 ≤ i ∧ i < (f.streams.length : Int)) ∧
  (¬(0 ≤ i ∧ i < (f.streams.length : Int)) →
    (plan_set_stream_language f i lang).1 = [] ∧
    (plan_set_stream_language f i lang).2 ≠ none)

/-- Counterexample to C2: retagging stream index -1 of a one-stream file
emits a metadata directive and succeeds, although -1 is outside
`0 ≤ i < len`. -/
theorem claim_C2_counterexample : ¬ C2_claim_retag exFileSolo (-1) "ger" := by
  unfold C2_claim_retag
  intro h
  have hb := h.1 (by decide)
  exact absurd hb (by decide)

/-- C2 (amended): the planner checks only the upper bound `i < len`. An
index `i ≥ len` fails with no directive (for retag, via the uncaught
AttributeError raised while formatting the fatal message); `i < -len`
fails with an uncaught IndexError and no directive; a negative index with
`-len ≤ i < 0` is accepted by Python list indexing and addresses the
stream at position `len + i`, emitting a directive. -/
theorem claim_C2_amended_bounds (f : MediaFile) (i : Int) (lang : String) :
    (i ≥ (f.streams.length : Int) →
      plan_set_stream_language f i lang =
        ([], some (PyErr.attributeError "stream_index")) ∧
      plan_delete_stream f [PyVal.int i] =
        ([], some (PyErr.fatalErr "Stream index not found"))) ∧
    (i < -(f.streams.length : Int) →
      plan_set_stream_language f i lang = ([], some PyErr.indexError) ∧
      plan_delete_stream f [PyVal.int i] = ([], some PyErr.indexError)) ∧
    (-(f.streams.length : Int) ≤ i → i < 0 →
      ∃ st, pyIndex f.streams i = some st ∧
        (st.language ≠ lang →
          plan_set_stream_language f i lang =
            ([["-metadata:s:" ++ toString i, "language=" ++ lang]], none)) ∧
        plan_delete_stream f [PyVal.int i] =
          ([["-map", "-0:" ++ toString st.index]], none)) := by
  refine ⟨?_, ?_, ?_⟩
  · intro hge
    have hd : decide (i ≥ (f.streams.length : Int)) = true := decide_eq_true hge
    constructor
    · unfold plan_set_stream_language
      rw [if_pos hge]
    · simp [plan_delete_stream, pyGe, hd]
  · intro hlt
    have hnn : (0 : Int) ≤ (f.streams.length : Int) := by positivity
    have h0 : ¬ (0 : Int) ≤ i := by omega
    have h1 : ¬ (0 : Int) ≤ (f.streams.length : Int) + i := by omega
    have hnone : pyIndex f.streams i = none := by
      unfold pyIndex
      rw [if_neg h0, if_neg h1]
    have hd : decide (i ≥ (f.streams.length : Int)) = false :=
      decide_eq_false (by omega)
    constructor
    · unfold plan_set_stream_language
      rw [if_neg (by omega), hnone]
    · simp [plan_delete_stream, pyGe, hd, hnone]
  · intro hle hneg
    have h0 : ¬ (0 : Int) ≤ i := by omega
    have h1 : (0 : Int) ≤ (f.streams.length : Int) + i := by omega
    have hltn : ((f.streams.length : Int) + i).toNat < f.streams.length := by omega
    have hsome : pyIndex f.streams i =
        some (f.streams.get ⟨((f.streams.length : Int) + i).toNat, hltn⟩) := by
      unfold pyIndex
      rw [if_neg h0, if_pos h1]
      exact List.get?_eq_get hltn
    have hd : decide (i ≥ (f.streams.length : Int)) = false :=
      decide_eq_false (by omega)
    refine ⟨_, hsome, ?_, ?_⟩
    · intro hne
      unfold plan_set_stream_language
      rw [if_neg (by omega), hsome]
      simp only [List.get_eq_getElem] at hne
      simp [hne]
    · simp [plan_delete_stream, pyGe, hd, hsome]

/-- Witness for C2 (amended): deleting stream -1 from the one-stream file
emits the exclusion directive for the last stream (container index 0). -/
theorem claim_C2_witness :
    plan_delete_stream exFileSolo [PyVal.int (-1)] = ([["-map", "-0:0"]], none) := by
  obtain ⟨st, hsome, hretag, hdel⟩ :=
    (claim_C2_amended_bounds exFileSolo (-1) "ger").2.2 (by decide) (by decide)
  have heval : pyIndex exFileSolo.streams (-1) = some (Stream_mk rawAudioSolo) := rfl
  rw [heval] at hsome
  have hst : st = Stream_mk rawAudioSolo := (Option.some.inj hsome).symm
  rw [hst] at hdel
  exact hdel

theorem extract_subtitles_fx_dry (cfg : Config) (f : MediaFile) (existing : List String)
    (name dir : String) (rc_ext : Nat → Int) (h : cfg.dry_run = true) :
    extract_subtitles_fx cfg f existing name dir rc_ext = [] := by
  unfold extract_subtitles_fx FfmpegExecutor_execute
  rw [h]
  simp

theorem mem_extract_subtitles_fx (cfg : Config) (f : MediaFile) (existing : List String)
    (name dir : String) (rc_ext : Nat → Int) (e : Effect)
    (he : e ∈ extract_subtitles_fx cfg f existing name dir rc_ext) :
    ∃ args, e = Effect.runProcess args := by
  unfold extract_subtitles_fx at he
  rcases List.mem_flatten.1 he with ⟨l, hl, hel⟩
  rcases List.mem_map.1 hl with ⟨p, hp, rfl⟩
  by_cases hd : cfg.dry_run
  · simp [FfmpegExecutor_execute, hd] at hel
  · simp [FfmpegExecutor_execute, hd] at hel
    exact ⟨_, hel⟩

theorem pre_engine_fx_dry (cfg : Config) (f : MediaFile) (existing : List String)
    (stem wd : String) (rc_ext : Nat → Int) (h : cfg.dry_run = true) :
    pre_engine_fx cfg f existing stem wd rc_ext = [] := by
  unfold pre_engine_fx
  rw [extract_subtitles_fx_dry cfg f existing stem wd rc_ext h, h]
  simp

theorem mem_pre_engine_fx (cfg : Config) (f : MediaFile) (existing : List String)
    (stem wd : String) (rc_ext : Nat → Int) (e : Effect)
    (he : e ∈ pre_engine_fx cfg f existing stem wd rc_ext) :
    (∃ p, e = Effect.makedirs p) ∨ (∃ args, e = Effect.runProcess args) := by
  unfold pre_engine_fx at he
  rcases List.mem_append.1 he with h1 | h2
  · left
    refine ⟨wd, ?_⟩
    by_cases hc : wd ∉ existing ∧ !cfg.dry_run
    · simpa [hc] using h1
    · rw [if_neg hc] at h1
      exact absurd h1 (by simp)
  · by_cases hs : cfg.extract_subs
    · rw [if_pos hs] at h2
      exact Or.inr (mem_extract_subtitles_fx cfg f existing stem wd rc_ext e h2)
    · simp [hs] at h2

/-- C3: whenever the main engine invocation returns a non-zero exit code
(outside dry-run), the whole effect trace of the commit phase contains no
unlink and no rename whatsoever — in particular the original input file is
never deleted, renamed or overwritten, and the partially-written working
file is not rolled back — and, provided the run actually reached the
invocation (preconditions passed, at least one action), it fails with the
ffmpeg-failure fatal error right after the invocation. -/
theorem claim_C3_engine_failure_preserves_original (cfg : Config) (f : MediaFile)
    (oc dir0 stem : String) (existing : List String) (eargs : List String)
    (na : Nat) (cc : Bool) (wea : Bool) (rc_main : Int) (rc_ext : Nat → Int)
    (hdry : cfg.dry_run = false) (hrc : rc_main ≠ 0) :
    (∀ p, Effect.unlink p ∉
      (process_file_commit cfg f oc dir0 stem existing eargs na cc wea rc_main rc_ext).1) ∧
    (∀ a b, Effect.replace a b ∉
      (process_file_commit cfg f oc dir0 stem existing eargs na cc wea rc_main rc_ext).1) ∧
    (working_file_of cfg dir0 stem oc ∉ existing →
      (cc = false ∨ output_file_of cfg dir0 stem oc ∉ existing) →
      na ≠ 0 →
      (process_file_commit cfg f oc dir0 stem existing eargs na cc wea rc_main rc_ext).2 =
        some (PyErr.fatalErr ("ffmpeg execution failed with exit code " ++
          toString rc_main))) := by
  have hrun : FfmpegExecutor_execute cfg.dry_run
      (eargs ++ [working_file_of cfg dir0 stem oc]) rc_main =
      (rc_main, [Effect.runProcess (eargs ++ [working_file_of cfg dir0 stem oc])]) := by
    simp [FfmpegExecutor_execute, hdry]
  have hshape : ∀ e ∈ (process_file_commit cfg f oc dir0 stem existing eargs na cc wea
      rc_main rc_ext).1,
      (∃ p, e = Effect.makedirs p) ∨ (∃ args, e = Effect.runProcess args) := by
    intro e he
    unfold process_file_commit at he
    split at he
    · simp at he
    · split at he
      · simp at he
      · split at he
        · exact mem_pre_engine_fx cfg f existing stem _ rc_ext e he
        · split at he
          · rw [hrun] at he
            rcases List.mem_append.1 he with h1 | h2
            · exact mem_pre_engine_fx cfg f existing stem _ rc_ext e h1
            · exact Or.inr ⟨_, by simpa using h2⟩
          · rename_i hcond
            rw [hrun] at hcond
            simp at hcond
            exact absurd hcond hrc
  refine ⟨?_, ?_, ?_⟩
  · intro p hmem
    rcases hshape _ hmem with ⟨q, hq⟩ | ⟨args, hq⟩ <;> exact Effect.noConfusion hq
  · intro a b hmem
    rcases hshape _ hmem with ⟨q, hq⟩ | ⟨args, hq⟩ <;> exact Effect.noConfusion hq
  · intro hw ho hna
    unfold process_file_commit
    rw [if_neg hw, if_neg ?hcc, if_neg hna, if_pos ?hfail]
    case hcc =>
      rcases ho with h | h <;> simp [h]
    case hfail =>
      rw [hrun]
      simpa using hrc
    rw [hrun]

/-- Witness for C3: a concrete failing run (exit code 1) over the solo file
ends in the ffmpeg-failure fatal error and never unlinks the original. -/
theorem claim_C3_witness :
    (process_file_commit cfgWet exFileSolo "mkv" "/m" "y" [] ["ffmpeg", "-c", "copy"]
      1 false false 1 (fun _ => 0)).2 =
      some (PyErr.fatalErr "ffmpeg execution failed with exit code 1") ∧
    Effect.unlink "/m/y.mkv" ∉
      (process_file_commit cfgWet exFileSolo "mkv" "/m" "y" [] ["ffmpeg", "-c", "copy"]
        1 false false 1 (fun _ => 0)).1 := by
  have hdry : cfgWet.dry_run = false := by decide
  have hrc : (1 : Int) ≠ 0 := by decide
  have h := claim_C3_engine_failure_preserves_original cfgWet exFileSolo "mkv" "/m" "y"
    [] ["ffmpeg", "-c", "copy"] 1 false false 1 (fun _ => 0) hdry hrc
  exact ⟨h.2.2 (by simp) (Or.inl rfl) (by decide), h.1 "/m/y.mkv"⟩

/-- C5: in dry-run mode the commit phase performs no filesystem effect at
all — no directory creation, no subprocess launch, no unlink, no rename —
and the executor treats every invocation as a success with outcome 0
without launching anything. -/
theorem claim_C5_dry_run_no_effects (cfg : Config) (f : MediaFile)
    (oc dir0 stem : String) (existing : List String) (eargs : List String)
    (na : Nat) (cc : Bool) (wea : Bool) (rc_main : Int) (rc_ext : Nat → Int)
    (hdry : cfg.dry_run = true) :
    (process_file_commit cfg f oc dir0 stem existing eargs na cc wea rc_main rc_ext).1
      = [] ∧
    (∀ args rc, FfmpegExecutor_execute true args rc = (0, [])) := by
  have hpre : pre_engine_fx cfg f existing stem (working_dir_of cfg dir0 stem) rc_ext = [] :=
    pre_engine_fx_dry cfg f existing stem _ rc_ext hdry
  have hex : FfmpegExecutor_execute cfg.dry_run
      (eargs ++ [working_file_of cfg dir0 stem oc]) rc_main = (0, []) := by
    simp [FfmpegExecutor_execute, hdry]
  constructor
  · unfold process_file_commit
    split
    · rfl
    · split
      · rfl
      · split
        · simpa using hpre
        · split
          · rename_i hcond
            rw [hex] at hcond
            simp at hcond
          · rw [hex, hpre]
            simp [cleanup_fn, hdry]
  · intro args rc
    rfl

/-- Witness for C5: a concrete dry-run commit over the solo file produces
an empty effect trace. -/
theorem claim_C5_witness :
    (process_file_commit cfgDry exFileSolo "mkv" "/m" "y" [] ["ffmpeg", "-c", "copy"]
      1 false false 1 (fun _ => 0)).1 = [] := by
  have h := claim_C5_dry_run_no_effects cfgDry exFileSolo "mkv" "/m" "y" []
    ["ffmpeg", "-c", "copy"] 1 false false 1 (fun _ => 0) rfl
  exact h.1

/-- C10: with cleanup enabled and dry-run disabled, the commit step aborts
fatally without touching the original when the working file is missing;
when the working file is present it first unlinks the original, then
renames the working file onto the final path. -/
theorem claim_C10_commit_order (cfg : Config) (we : Bool) (inp wrk out : String)
    (hdry : cfg.dry_run = false) (hcl : cfg.cleanup = true) :
    (we = false → cleanup_fn cfg we inp wrk out =
      ([], some (PyErr.fatalErr (wrk ++ " does not exist. Aborting cleanup")))) ∧
    (we = true → cleanup_fn cfg we inp wrk out =
      ([Effect.unlink inp, Effect.replace wrk out], none)) := by
  constructor
  · intro hwe
    simp [cleanup_fn, hdry, hcl, hwe]
  · intro hwe
    simp [cleanup_fn, hdry, hcl, hwe]

/-- Witness for C10: a concrete commit with the working file present
unlinks the original first and then renames the working file. -/
theorem claim_C10_witness :
    cleanup_fn cfgWet true "/m/y.mkv" "/m/y.new.mkv" "/m/y2.mkv" =
      ([Effect.unlink "/m/y.mkv", Effect.replace "/m/y.new.mkv" "/m/y2.mkv"], none) :=
  (claim_C10_commit_order cfgWet true "/m/y.mkv" "/m/y.new.mkv" "/m/y2.mkv"
    rfl rfl).2 rfl

theorem str_append_assoc (a b c : String) : a ++ b ++ c = a ++ (b ++ c) := by
  cases a with | mk la =>
  cases b with | mk lb =>
  cases c with | mk lc =>
  show String.mk ((la ++ lb) ++ lc) = String.mk (la ++ (lb ++ lc))
  rw [List.append_assoc]

/-- The sidecar base name exactly as the spec words it: destination
directory and input stem, a dot, the language code, then ".sdh" appended
when the stream is hearing impaired and ".forced" appended when it is
forced. -/
def spec_sidecar_base (destination_dir name : String) (subtitle : MStream) : String :=
  destination_dir ++ "/" ++ name ++ "." ++ subtitle.language ++
    (if is_hearing_impaired subtitle then ".sdh" else "") ++
    (if is_forced subtitle then ".forced" else "")

theorem resolve_eq_loop (existing : List String) (subtitle : MStream)
    (name destination_dir : String) :
    resolve_new_subtitle_file_path existing subtitle name destination_dir =
      resolve_loop existing (spec_sidecar_base destination_dir name subtitle)
        (existing.length + 1) 0 := by
  unfold resolve_new_subtitle_file_path spec_sidecar_base
  by_cases h1 : is_hearing_impaired subtitle <;> by_cases h2 : is_forced subtitle <;>
    simp [h1, h2, String.append_empty, str_append_assoc]

theorem resolve_loop_finds_least (existing : List String) (base : String) :
    ∀ fuel i : Nat,
      (∃ m : Nat, i ≤ m ∧ m < i + fuel ∧ subtitle_candidate base m ∉ existing) →
      ∃ k : Nat, resolve_loop existing base fuel i = some (subtitle_candidate base k) ∧
        i ≤ k ∧ subtitle_candidate base k ∉ existing ∧
        ∀ j : Nat, i ≤ j → j < k → subtitle_candidate base j ∈ existing := by
  intro fuel
  induction fuel with
  | zero =>
    intro i h
    obtain ⟨m, h1, h2, _⟩ := h
    omega
  | succ fuel ih =>
    intro i h
    by_cases hc : subtitle_candidate base i ∈ existing
    · obtain ⟨m, h1, h2, hm⟩ := h
      have hmi : m ≠ i := by
        intro he
        rw [he] at hm
        exact hm hc
      obtain ⟨k, hk, hik, hfresh, hmin⟩ := ih (i + 1) ⟨m, by omega, by omega, hm⟩
      refine ⟨k, ?_, by omega, hfresh, ?_⟩
      · unfold resolve_loop
        rw [if_pos hc]
        exact hk
      · intro j hj1 hj2
        by_cases hji : j = i
        · rw [hji]
          exact hc
        · exact hmin j (by omega) hj2
    · refine ⟨i, ?_, le_refl i, hc, ?_⟩
      · unfold resolve_loop
        rw [if_neg hc]
      · intro j hj1 hj2
        exact absurd hj2 (by omega)

/-- C7: the extraction sidecar path is the spec-worded base name (stem,
dot, language code, optional ".sdh", optional ".forced") followed by the
subtitle extension, and on collision the first free candidate in the
ascending sequence ".1", ".2", ... is chosen: the returned path is the
candidate with the least index whose name does not already exist. The
hypothesis — some candidate among the first `existing.length + 1` is free —
always holds on a real (finite) filesystem since the candidate names are
pairwise distinct. -/
theorem claim_C7_sidecar_naming (existing : List String) (subtitle : MStream)
    (name destination_dir : String)
    (hfree : ∃ m : Nat, m ≤ existing.length ∧
      subtitle_candidate (spec_sidecar_base destination_dir name subtitle) m ∉ existing) :
    ∃ k : Nat,
      resolve_new_subtitle_file_path existing subtitle name destination_dir =
        some (subtitle_candidate (spec_sidecar_base destination_dir name subtitle) k) ∧
      subtitle_candidate (spec_sidecar_base destination_dir name subtitle) k ∉ existing ∧
      ∀ j : Nat, j < k →
        subtitle_candidate (spec_sidecar_base destination_dir name subtitle) j ∈ existing := by
  obtain ⟨m, hm1, hm2⟩ := hfree
  obtain ⟨k, hk, _, hfresh, hmin⟩ :=
    resolve_loop_finds_least existing (spec_sidecar_base destination_dir name subtitle)
      (existing.length + 1) 0 ⟨m, Nat.zero_le m, by omega, hm2⟩
  refine ⟨k, ?_, hfresh, fun j hj => hmin j (Nat.zero_le j) hj⟩
  rw [resolve_eq_loop]
  exact hk

/-- The filesystem snapshot for the C7 witness: the plain English sidecar
already exists. -/
def exC7existing : List String := ["d/movie.eng.srt"]

/-- Witness for C7: with `d/movie.eng.srt` present, extracting the English
text subtitle resolves to `d/movie.eng.1.srt`. -/
theorem claim_C7_witness :
    resolve_new_subtitle_file_path exC7existing (Stream_mk rawSub1) "movie" "d" =
      some "d/movie.eng.1.srt" := by
  obtain ⟨k, hk, hfresh, hmin⟩ :=
    claim_C7_sidecar_naming exC7existing (Stream_mk rawSub1) "movie" "d"
      ⟨1, by decide, by decide⟩
  have hk0 : k ≠ 0 := by
    intro h0
    rw [h0] at hfresh
    exact hfresh (by decide)
  have hk2 : k < 2 := by
    by_contra hge
    exact absurd (hmin 1 (by omega)) (by decide)
  have hk1 : k = 1 := by omega
  rw [hk1] at hk
  exact hk

end Mediautil
